import Mathlib

/-!
Shallow embedding of the BLOCKCHAIN-FMS fisheries chaincode.

The repository holds two variants of the same Hyperledger Fabric contract:
the primary chaincode (src/unnamed/part_001, the "getreech" contract,
embedded below in namespace Getreech) and a backup variant
(src/chaincode-backup/bigdatacc/bigdatacc.go, embedded in namespace
Bigdatacc).  Stored ledger bytes are modelled as parsed JSON values;
the ledger substrate (Fabric stub) is modelled as an explicit world state
threaded through each operation.  Machine floats (Go float64) are modelled
as exact rationals: every numeric literal exercised by the development
(10.5, -1.0, 5.0) is exactly representable in binary64, so the model and
the code agree on them.
-/

namespace FMS

/-- JSON values, the model of the bytes stored on the ledger.  Numbers are
modelled as exact rationals (see the header comment). -/
inductive Json where
  | null : Json
  | bool (b : Bool) : Json
  | num (q : ℚ) : Json
  | str (s : String) : Json
  | arr (elems : List Json) : Json
  | obj (fields : List (String × Json)) : Json

/-- Result of reading one attribute from the client identity: the Fabric
GetAttributeValue call returns (value, found, err). -/
inductive AttrRead where
  | err : AttrRead
  | absent : AttrRead
  | found (v : String) : AttrRead
deriving DecidableEq

/-- The invoking client identity: named attributes plus the stable client id
returned by GetID (none models a GetID error). -/
structure ClientIdentity where
  attr : String → AttrRead
  clientId : Option String

/-- Ledger world state: the shared key-value state and the private data
collections, both as last-write-wins association lists with unique keys. -/
structure World where
  state : List (String × Json)
  priv : List ((String × String) × Json)

def emptyWorld : World := ⟨[], []⟩

/-- Model of stub.GetState. -/
def World.getState (w : World) (k : String) : Option Json :=
  (w.state.find? (fun kv => kv.1 == k)).map (fun kv => kv.2)

/-- Model of stub.PutState: replaces any previous value at the key. -/
def World.putState (w : World) (k : String) (v : Json) : World :=
  { w with state := (k, v) :: w.state.filter (fun kv => kv.1 != k) }

/-- Model of stub.DelState: removes any value at the key. -/
def World.delState (w : World) (k : String) : World :=
  { w with state := w.state.filter (fun kv => kv.1 != k) }

/-- Model of stub.GetPrivateData: private data is keyed by collection name
and key. -/
def World.getPrivateData (w : World) (coll k : String) : Option Json :=
  (w.priv.find? (fun e => e.1 == (coll, k))).map (fun e => e.2)

/-- Model of stub.PutPrivateData: replaces any previous value at the
(collection, key) pair. -/
def World.putPrivateData (w : World) (coll k : String) (v : Json) : World :=
  { w with priv := ((coll, k), v) :: w.priv.filter (fun e => e.1 != (coll, k)) }

/-- Lexicographic comparison of character lists by code point, the model of
Go's built-in string comparison (UTF-8 byte order coincides with code-point
order). -/
def charListLe : List Char → List Char → Bool
  | [], _ => true
  | _ :: _, [] => false
  | a :: as, b :: bs =>
      if a.toNat < b.toNat then true
      else if b.toNat < a.toNat then false
      else charListLe as bs

/-- Go string comparison s <= t. -/
def strLe (s t : String) : Bool := charListLe s.data t.data

/-- Go string comparison s < t. -/
def strLt (s t : String) : Bool := !(strLe t s)

/-- Model of stub.GetStateByRange(startKey, endKey): the entries of the
shared state whose key lies in the half-open interval, enumerated forward
in lexicographic key order (Fabric iterates keys in order; the association
list is unordered, so the scan sorts). -/
def World.rangeScan (w : World) (startKey endKey : String) : List (String × Json) :=
  List.insertionSort (fun a b => strLe a.1 b.1 = true)
    (w.state.filter (fun kv => strLe startKey kv.1 && strLt kv.1 endKey))

lemma charListLe_total (as bs : List Char) :
    charListLe as bs = true ∨ charListLe bs as = true := by
  induction as generalizing bs with
  | nil => exact .inl rfl
  | cons a as ih =>
      cases bs with
      | nil => exact .inr rfl
      | cons b bs =>
          rcases Nat.lt_trichotomy a.toNat b.toNat with h | h | h
          · left; simp [charListLe, h]
          · rcases ih bs with h2 | h2
            · left; simp [charListLe, h, Nat.lt_irrefl, h2]
            · right; simp [charListLe, h, Nat.lt_irrefl, h2]
          · right; simp [charListLe, h]

lemma charListLe_trans (as : List Char) : ∀ bs cs : List Char,
    charListLe as bs = true → charListLe bs cs = true → charListLe as cs = true := by
  induction as with
  | nil => intro bs cs _ _; rfl
  | cons a as ih =>
      intro bs cs h1 h2
      cases bs with
      | nil => simp [charListLe] at h1
      | cons b bs =>
          cases cs with
          | nil => simp [charListLe] at h2
          | cons c cs =>
              rcases Nat.lt_trichotomy a.toNat b.toNat with hab | hab | hab
              · rcases Nat.lt_trichotomy b.toNat c.toNat with hbc | hbc | hbc
                · simp [charListLe, Nat.lt_trans hab hbc]
                · simp [charListLe, hbc ▸ hab]
                · simp [charListLe, Nat.lt_asymm hbc, hbc] at h2
              · rcases Nat.lt_trichotomy b.toNat c.toNat with hbc | hbc | hbc
                · simp [charListLe, hab.symm ▸ hbc]
                · simp only [charListLe, hab, Nat.lt_irrefl, if_false] at h1
                  simp only [charListLe, hbc, Nat.lt_irrefl, if_false] at h2
                  simp only [charListLe, hab.trans hbc, Nat.lt_irrefl, if_false]
                  exact ih bs cs h1 h2
                · simp [charListLe, Nat.lt_asymm hbc, hbc] at h2
              · simp [charListLe, Nat.lt_asymm hab, hab] at h1

lemma strLe_total (s t : String) : strLe s t = true ∨ strLe t s = true :=
  charListLe_total s.data t.data

lemma strLe_trans {s t u : String} (h1 : strLe s t = true) (h2 : strLe t u = true) :
    strLe s u = true :=
  charListLe_trans s.data t.data u.data h1 h2

instance : IsTotal (String × Json) (fun a b => strLe a.1 b.1 = true) :=
  ⟨fun a b => strLe_total a.1 b.1⟩

instance : IsTrans (String × Json) (fun a b => strLe a.1 b.1 = true) :=
  ⟨fun _ _ _ hab hbc => strLe_trans hab hbc⟩

/-- Numeric value of a run of decimal digit characters. -/
def digitsVal (cs : List Char) : Nat :=
  cs.foldl (fun a c => a * 10 + (c.toNat - 48)) 0

/-- Decomposed decimal numeral: sign, integer-part value, fractional-part
value, number of fractional digits.  Kept separate from the rational
conversion so that the purely syntactic part of parsing reduces in the
kernel. -/
def numeralParts (s : String) : Option (Bool × Nat × Nat × Nat) :=
  let cs := s.data
  let signed : Bool × List Char :=
    match cs with
    | '-' :: rest => (true, rest)
    | '+' :: rest => (false, rest)
    | _ => (false, cs)
  match signed.2.splitOn '.' with
  | [ip] =>
      if ip ≠ [] ∧ ip.all Char.isDigit then some (signed.1, digitsVal ip, 0, 0) else none
  | [ip, fp] =>
      if (ip ≠ [] ∨ fp ≠ []) ∧ ip.all Char.isDigit ∧ fp.all Char.isDigit then
        some (signed.1, digitsVal ip, digitsVal fp, fp.length)
      else none
  | _ => none

/-- Rational value of a decomposed decimal numeral. -/
def partsToRat (p : Bool × Nat × Nat × Nat) : ℚ :=
  let v : ℚ := (p.2.1 : ℚ) + (p.2.2.1 : ℚ) / (10 : ℚ) ^ p.2.2.2
  if p.1 then -v else v

/-- Model of Go strconv.ParseFloat on plain decimal numerals: optional sign,
integer digits, optional fractional digits (at least one digit overall).
Go additionally accepts exponent/hex/Inf/NaN forms, none of which the
repository or its tests exercise, so they are left out of the model;
rounding to binary64 is modelled as exact (see the header comment), and the
out-of-range (ErrRange) failure, reachable only with numerals of several
hundred digits, is not modelled. -/
def parseFloat (s : String) : Option ℚ :=
  (numeralParts s).map partsToRat

/-- Model of Go strconv.Atoi: optional sign followed by decimal digits.
Atoi's 64-bit range error is not modelled: a numeral beyond 2^63 parses here
but errors in Go. -/
def parseAtoi (s : String) : Option Int :=
  let cs := s.data
  let signed : Bool × List Char :=
    match cs with
    | '-' :: rest => (true, rest)
    | '+' :: rest => (false, rest)
    | _ => (false, cs)
  if signed.2 ≠ [] ∧ signed.2.all Char.isDigit then
    some (if signed.1 then -(digitsVal signed.2 : Int) else (digitsVal signed.2 : Int))
  else none

/-- Fisher record (both variants declare the same struct). -/
structure Fisher where
  id : String
  name : String
  govtId : String
  role : String
deriving DecidableEq

/-- Catch record; WeightKg is Go float64, modelled as an exact rational. -/
structure Catch where
  catchId : String
  fisherId : String
  species : String
  weightKg : ℚ
  date : String
deriving DecidableEq

/-- Batch record. -/
structure Batch where
  batchId : String
  catchIds : List String
  processorId : String
  date : String
  qrCodeUrl : String
deriving DecidableEq

/-- Order record. -/
structure Order where
  orderId : String
  batchId : String
  buyerId : String
  status : String
  date : String
deriving DecidableEq

/-- Asset record (test utility entity of the backup variant). -/
structure Asset where
  id : String
  color : String
  size : Int
  owner : String
  appraisedValue : Int
deriving DecidableEq

/-- json.Marshal of a Fisher: field names and order as tagged in the Go struct.
Marshalling a struct of strings cannot fail in Go, so it is total here. -/
def marshalFisher (f : Fisher) : Json :=
  .obj [("id", .str f.id), ("name", .str f.name), ("govtId", .str f.govtId),
        ("role", .str f.role)]

/-- json.Marshal of a Catch. -/
def marshalCatch (c : Catch) : Json :=
  .obj [("catchId", .str c.catchId), ("fisherId", .str c.fisherId),
        ("species", .str c.species), ("weightKg", .num c.weightKg),
        ("date", .str c.date)]

/-- json.Marshal of a Batch. -/
def marshalBatch (b : Batch) : Json :=
  .obj [("batchId", .str b.batchId),
        ("catchIds", .arr (b.catchIds.map Json.str)),
        ("processorId", .str b.processorId), ("date", .str b.date),
        ("qrCodeUrl", .str b.qrCodeUrl)]

/-- json.Marshal of an Order. -/
def marshalOrder (o : Order) : Json :=
  .obj [("orderId", .str o.orderId), ("batchId", .str o.batchId),
        ("buyerId", .str o.buyerId), ("status", .str o.status),
        ("date", .str o.date)]

/-- json.Marshal of an Asset. -/
def marshalAsset (a : Asset) : Json :=
  .obj [("id", .str a.id), ("color", .str a.color), ("size", .num (a.size : ℚ)),
        ("owner", .str a.owner), ("appraisedValue", .num (a.appraisedValue : ℚ))]

/-- Read a string-typed field the way Go json.Unmarshal does: an absent field
leaves the zero value, a present field of the wrong type is an error. -/
def getStrField (fields : List (String × Json)) (name : String) : Except String String :=
  match fields.find? (fun kv => kv.1 == name) with
  | none => .ok ""
  | some (_, .str s) => .ok s
  | some _ => .error ("cannot unmarshal field " ++ name)

/-- Read a numeric field the way Go json.Unmarshal does. -/
def getNumField (fields : List (String × Json)) (name : String) : Except String ℚ :=
  match fields.find? (fun kv => kv.1 == name) with
  | none => .ok 0
  | some (_, .num q) => .ok q
  | some _ => .error ("cannot unmarshal field " ++ name)

/-- json.Unmarshal into a Fisher struct. -/
def unmarshalFisher (j : Json) : Except String Fisher :=
  match j with
  | .obj fields => do
      let id ← getStrField fields "id"
      let name ← getStrField fields "name"
      let govtId ← getStrField fields "govtId"
      let role ← getStrField fields "role"
      pure ⟨id, name, govtId, role⟩
  | _ => .error "cannot unmarshal into Fisher"

/-- json.Unmarshal into a Catch struct. -/
def unmarshalCatch (j : Json) : Except String Catch :=
  match j with
  | .obj fields => do
      let catchId ← getStrField fields "catchId"
      let fisherId ← getStrField fields "fisherId"
      let species ← getStrField fields "species"
      let weightKg ← getNumField fields "weightKg"
      let date ← getStrField fields "date"
      pure ⟨catchId, fisherId, species, weightKg, date⟩
  | _ => .error "cannot unmarshal into Catch"

/-- Read an integer field the way Go json.Unmarshal does for an int target:
a non-integral number is an error. -/
def getIntField (fields : List (String × Json)) (name : String) : Except String Int :=
  match fields.find? (fun kv => kv.1 == name) with
  | none => .ok 0
  | some (_, .num q) => if q.den = 1 then .ok q.num else .error ("cannot unmarshal field " ++ name)
  | some _ => .error ("cannot unmarshal field " ++ name)

/-- json.Unmarshal into an Asset struct. -/
def unmarshalAsset (j : Json) : Except String Asset :=
  match j with
  | .obj fields => do
      let id ← getStrField fields "id"
      let color ← getStrField fields "color"
      let size ← getIntField fields "size"
      let owner ← getStrField fields "owner"
      let appVal ← getIntField fields "appraisedValue"
      pure ⟨id, color, size, owner, appVal⟩
  | _ => .error "cannot unmarshal into Asset"

/-- Pad a digit string with leading zeros up to length n. -/
def padLeftZeros (s : String) (n : Nat) : String :=
  if s.length < n then String.mk (List.replicate (n - s.length) '0') ++ s else s

/-- Render a rational as Go encoding/json renders the corresponding float64:
integral values without a decimal point is not quite Go (Go prints 10 as 10)
and finite decimal expansions are printed in full; values needing more than
20 decimal places cannot arise from exact float64 values stored by this
model. -/
def renderQ (q : ℚ) : String :=
  if q.den = 1 then toString q.num
  else
    match (List.range 21).find? (fun k => (q * (10 : ℚ) ^ k).den = 1) with
    | some k =>
        let n := (q * (10 : ℚ) ^ k).num
        let sign := if n < 0 then "-" else ""
        let ds := padLeftZeros (toString n.natAbs) (k + 1)
        let i := ds.length - k
        sign ++ ds.take i ++ "." ++ ds.drop i
    | none => toString q.num ++ "/" ++ toString q.den

/-- Render a JSON string literal; escaping of special characters inside the
string is not modelled (no claim depends on it). -/
def renderString (s : String) : String := "\"" ++ s ++ "\""

/-- Render one Catch as its JSON object text, fields in Go struct order. -/
def renderCatch (c : Catch) : String :=
  "\x7b\"catchId\":" ++ renderString c.catchId ++
  ",\"fisherId\":" ++ renderString c.fisherId ++
  ",\"species\":" ++ renderString c.species ++
  ",\"weightKg\":" ++ renderQ c.weightKg ++
  ",\"date\":" ++ renderString c.date ++ "\x7d"

/-- json.Marshal of the report accumulator.  In Go the accumulator is a slice
declared nil and grown only by append, so it is nil exactly when no record
matched, and json.Marshal of a nil slice yields the string null, not the
empty array. -/
def marshalCatches (cs : List Catch) : String :=
  if cs.isEmpty then "null"
  else "[" ++ String.intercalate "," (cs.map renderCatch) ++ "]"

namespace Getreech

/-- hasRole of the primary chaincode: deny on attribute-read error or absent
attribute, otherwise require exact equality with the requested role. -/
def hasRole (ci : ClientIdentity) (role : String) : Bool :=
  match ci.attr "role" with
  | .err => false
  | .absent => false
  | .found v => v == role

/-- isCaller of the primary chaincode: compares the hf.EnrollmentID attribute,
denying on read error or absence. -/
def isCaller (ci : ClientIdentity) (id : String) : Bool :=
  match ci.attr "hf.EnrollmentID" with
  | .err => false
  | .absent => false
  | .found e => e == id

/-- RegisterFisher: authority-gated, writes the Fisher (role forced to
"fisher") into the FisherCollection private data partition. -/
def RegisterFisher (ci : ClientIdentity) (id name govtId : String) (w : World) :
    Except String Unit × World :=
  if !hasRole ci "authority" then
    (.error "only authority can register fishers", w)
  else
    let fisher : Fisher := ⟨id, name, govtId, "fisher"⟩
    (.ok (), w.putPrivateData "FisherCollection" ("FISHER_" ++ id) (marshalFisher fisher))

/-- GetFisher: reads the private data partition. -/
def GetFisher (fisherID : String) (w : World) : Except String Fisher × World :=
  match w.getPrivateData "FisherCollection" ("FISHER_" ++ fisherID) with
  | none => (.error ("fisher " ++ fisherID ++ " does not exist"), w)
  | some j =>
      match unmarshalFisher j with
      | .error e => (.error ("failed to unmarshal fisher data: " ++ e), w)
      | .ok f => (.ok f, w)

/-- LogCatch of the primary chaincode.  The role/ownership check is commented
out in the source ("Uncomment when ready to enforce access control"), so the
operation performs no authorization at all; the only validation is that
weightKg parses as a float (sign not checked). -/
def LogCatch (_ci : ClientIdentity) (catchId fisherId species weightKgStr date : String)
    (w : World) : Except String Unit × World :=
  match parseFloat weightKgStr with
  | none => (.error ("invalid weightKg value " ++ weightKgStr), w)
  | some weightKg =>
      let c : Catch := ⟨catchId, fisherId, species, weightKg, date⟩
      (.ok (), w.putState ("CATCH_" ++ catchId) (marshalCatch c))

/-- CreateBatch: processor-gated, derives the QR URL from the batch id. -/
def CreateBatch (ci : ClientIdentity) (batchId : String) (catchIds : List String)
    (processorId date : String) (w : World) : Except String Unit × World :=
  if !hasRole ci "processor" then
    (.error "only processor can create batches", w)
  else
    let batch : Batch :=
      ⟨batchId, catchIds, processorId, date, "https://getreech.example.org/batch/" ++ batchId⟩
    (.ok (), w.putState ("BATCH_" ++ batchId) (marshalBatch batch))

/-- TrackBatch: returns the raw stored bytes (modelled as the stored Json). -/
def TrackBatch (batchId : String) (w : World) : Except String Json × World :=
  match w.getState ("BATCH_" ++ batchId) with
  | none => (.error ("batch " ++ batchId ++ " not found"), w)
  | some b => (.ok b, w)

/-- PlaceOrder: buyer-gated, order created in status "placed". -/
def PlaceOrder (ci : ClientIdentity) (orderId batchId buyerId date : String) (w : World) :
    Except String Unit × World :=
  if !hasRole ci "buyer" then
    (.error "only buyer can place orders", w)
  else
    let order : Order := ⟨orderId, batchId, buyerId, "placed", date⟩
    (.ok (), w.putState ("ORDER_" ++ orderId) (marshalOrder order))

/-- Deserialization of one scanned entry, with the error wrapping the source
applies before aborting the loop. -/
def unmarshalCatchEntry (kv : String × Json) : Except String Catch :=
  match unmarshalCatch kv.2 with
  | .error e => .error ("failed to unmarshal catch data: " ++ e)
  | .ok c => .ok c

/-- The iterator loop of GenerateReport: deserialize each entry, abort on the
first failure, append entries whose date lies in the inclusive window. -/
def reportLoop (startDate endDate : String) :
    List (String × Json) → List Catch → Except String (List Catch)
  | [], acc => .ok acc
  | kv :: rest, acc =>
      match unmarshalCatchEntry kv with
      | .error e => .error e
      | .ok c =>
          reportLoop startDate endDate rest
            (if strLe startDate c.date && strLe c.date endDate then acc ++ [c] else acc)

/-- GenerateReport: authority-gated scan of the CATCH_ namespace filtered by
the inclusive lexicographic date window. -/
def GenerateReport (ci : ClientIdentity) (startDate endDate : String) (w : World) :
    Except String String × World :=
  if !hasRole ci "authority" then
    (.error "only authority can generate reports", w)
  else
    match reportLoop startDate endDate (w.rangeScan "CATCH_" "CATCH_~") [] with
    | .error e => (.error e, w)
    | .ok catches => (.ok (marshalCatches catches), w)

end Getreech

namespace Bigdatacc

/-- hasRole of the backup variant: permissive on attribute-read error or
absent attribute (documented in source as easing local testing), exact match
otherwise. -/
def hasRole (ci : ClientIdentity) (role : String) : Bool :=
  match ci.attr "role" with
  | .err => true
  | .absent => true
  | .found v => v == role

/-- isCaller of the backup variant: compares GetID, denying on error. -/
def isCaller (ci : ClientIdentity) (id : String) : Bool :=
  match ci.clientId with
  | none => false
  | some clientID => clientID == id

/-- RegisterFisher of the backup variant: authority-gated, writes to the
shared state space. -/
def RegisterFisher (ci : ClientIdentity) (id name govtId : String) (w : World) :
    Except String Unit × World :=
  if !hasRole ci "authority" then
    (.error "only authority can register fishers", w)
  else
    let f : Fisher := ⟨id, name, govtId, "fisher"⟩
    (.ok (), w.putState ("FISHER_" ++ id) (marshalFisher f))

/-- GetFisher of the backup variant: reads the shared state space. -/
def GetFisher (fisherID : String) (w : World) : Except String Fisher × World :=
  match w.getState ("FISHER_" ++ fisherID) with
  | none => (.error ("fisher " ++ fisherID ++ " does not exist"), w)
  | some j =>
      match unmarshalFisher j with
      | .error e => (.error e, w)
      | .ok f => (.ok f, w)

/-- LogCatch of the backup variant: rejected only when the caller BOTH lacks
the fisher role AND is not the named fisher (either condition alone admits
the write); weightKg must parse as a float (sign not checked). -/
def LogCatch (ci : ClientIdentity) (catchId fisherId species weightKgStr date : String)
    (w : World) : Except String Unit × World :=
  if !hasRole ci "fisher" && !isCaller ci fisherId then
    (.error "only the fisher can log their catch", w)
  else
    match parseFloat weightKgStr with
    | none => (.error ("invalid weightKg: " ++ weightKgStr), w)
    | some weightKg =>
        let c : Catch := ⟨catchId, fisherId, species, weightKg, date⟩
        (.ok (), w.putState ("CATCH_" ++ catchId) (marshalCatch c))

/-- GetCatch of the backup variant. -/
def GetCatch (catchId : String) (w : World) : Except String Catch × World :=
  match w.getState ("CATCH_" ++ catchId) with
  | none => (.error ("catch " ++ catchId ++ " not found"), w)
  | some j =>
      match unmarshalCatch j with
      | .error e => (.error e, w)
      | .ok c => (.ok c, w)

/-- CreateBatch of the backup variant. -/
def CreateBatch (ci : ClientIdentity) (batchId : String) (catchIds : List String)
    (processorId date : String) (w : World) : Except String Unit × World :=
  if !hasRole ci "processor" then
    (.error "only processor can create batches", w)
  else
    let batch : Batch :=
      ⟨batchId, catchIds, processorId, date, "https://example.org/batch/" ++ batchId⟩
    (.ok (), w.putState ("BATCH_" ++ batchId) (marshalBatch batch))

/-- TrackBatch of the backup variant. -/
def TrackBatch (batchId : String) (w : World) : Except String Json × World :=
  match w.getState ("BATCH_" ++ batchId) with
  | none => (.error ("batch " ++ batchId ++ " not found"), w)
  | some b => (.ok b, w)

/-- PlaceOrder of the backup variant. -/
def PlaceOrder (ci : ClientIdentity) (orderId batchId buyerId date : String) (w : World) :
    Except String Unit × World :=
  if !hasRole ci "buyer" then
    (.error "only buyer can place orders", w)
  else
    let o : Order := ⟨orderId, batchId, buyerId, "placed", date⟩
    (.ok (), w.putState ("ORDER_" ++ orderId) (marshalOrder o))

/-- The iterator loop of the backup GenerateReport: identical to the primary
variant but propagates unmarshal errors unwrapped. -/
def reportLoop (startDate endDate : String) :
    List (String × Json) → List Catch → Except String (List Catch)
  | [], acc => .ok acc
  | kv :: rest, acc =>
      match unmarshalCatch kv.2 with
      | .error e => .error e
      | .ok c =>
          reportLoop startDate endDate rest
            (if strLe startDate c.date && strLe c.date endDate then acc ++ [c] else acc)

/-- GenerateReport of the backup variant. -/
def GenerateReport (ci : ClientIdentity) (startDate endDate : String) (w : World) :
    Except String String × World :=
  if !hasRole ci "authority" then
    (.error "only authority can generate reports", w)
  else
    match reportLoop startDate endDate (w.rangeScan "CATCH_" "CATCH_~") [] with
    | .error e => (.error e, w)
    | .ok catches => (.ok (marshalCatches catches), w)

/-- CreateAsset: no authorization check; parses the two numeric arguments. -/
def CreateAsset (_ci : ClientIdentity) (id color sizeStr owner appraisedValueStr : String)
    (w : World) : Except String Unit × World :=
  match parseAtoi sizeStr with
  | none => (.error ("invalid size: " ++ sizeStr), w)
  | some size =>
      match parseAtoi appraisedValueStr with
      | none => (.error ("invalid appraisedValue: " ++ appraisedValueStr), w)
      | some appVal =>
          let a : Asset := ⟨id, color, size, owner, appVal⟩
          (.ok (), w.putState ("ASSET_" ++ id) (marshalAsset a))

/-- ReadAsset of the backup variant. -/
def ReadAsset (id : String) (w : World) : Except String Asset × World :=
  match w.getState ("ASSET_" ++ id) with
  | none => (.error ("asset " ++ id ++ " not found"), w)
  | some j =>
      match unmarshalAsset j with
      | .error e => (.error e, w)
      | .ok a => (.ok a, w)

/-- TransferAsset: read-modify-write of the owner field; no authorization
check; requires the prior record to exist and deserialize. -/
def TransferAsset (_ci : ClientIdentity) (assetKey newOwner : String) (w : World) :
    Except String Unit × World :=
  match w.getState ("ASSET_" ++ assetKey) with
  | none => (.error ("asset " ++ assetKey ++ " not found"), w)
  | some j =>
      match unmarshalAsset j with
      | .error e => (.error e, w)
      | .ok a =>
          (.ok (), w.putState ("ASSET_" ++ assetKey)
            (marshalAsset { a with owner := newOwner }))

/-- UpdateAsset: read-modify-write of color, size and appraised value; the
prior record must exist and deserialize, then both numeric arguments must
parse (raw strconv errors are propagated in the source). -/
def UpdateAsset (_ci : ClientIdentity) (assetKey color sizeStr appraisedValueStr : String)
    (w : World) : Except String Unit × World :=
  match w.getState ("ASSET_" ++ assetKey) with
  | none => (.error ("asset " ++ assetKey ++ " not found"), w)
  | some j =>
      match unmarshalAsset j with
      | .error e => (.error e, w)
      | .ok a =>
          match parseAtoi sizeStr with
          | none => (.error ("strconv.Atoi: parsing " ++ sizeStr ++ ": invalid syntax"), w)
          | some size =>
              match parseAtoi appraisedValueStr with
              | none =>
                  (.error ("strconv.Atoi: parsing " ++ appraisedValueStr
                    ++ ": invalid syntax"), w)
              | some appVal =>
                  (.ok (), w.putState ("ASSET_" ++ assetKey)
                    (marshalAsset ⟨a.id, color, size, a.owner, appVal⟩))

/-- DeleteAsset: requires the record to exist, then deletes its key. -/
def DeleteAsset (_ci : ClientIdentity) (assetKey : String) (w : World) :
    Except String Unit × World :=
  match w.getState ("ASSET_" ++ assetKey) with
  | none => (.error ("asset " ++ assetKey ++ " not found"), w)
  | some _ => (.ok (), w.delState ("ASSET_" ++ assetKey))

end Bigdatacc

/-! Sample identities used to instantiate the theorems on concrete inputs. -/

/-- Identity whose role attribute reads as "authority". -/
def ciAuthority : ClientIdentity :=
  ⟨fun a => if a == "role" then .found "authority" else .absent, some "A001"⟩

/-- Identity whose role attribute reads as "fisher", enrolled as F001. -/
def ciFisher : ClientIdentity :=
  ⟨fun a => if a == "role" then .found "fisher"
            else if a == "hf.EnrollmentID" then .found "F001" else .absent,
   some "F001"⟩

/-- Identity whose role attribute reads as "processor", enrolled as F002. -/
def ciProcessor : ClientIdentity :=
  ⟨fun a => if a == "role" then .found "processor"
            else if a == "hf.EnrollmentID" then .found "F002" else .absent,
   some "F002"⟩

/-- Identity with role "processor" but whose client id matches fisher F001. -/
def ciProcessorOwner : ClientIdentity :=
  ⟨fun a => if a == "role" then .found "processor"
            else if a == "hf.EnrollmentID" then .found "F001" else .absent,
   some "F001"⟩

/-- Identity whose role attribute reads as "buyer". -/
def ciBuyer : ClientIdentity :=
  ⟨fun a => if a == "role" then .found "buyer" else .absent, some "B001"⟩

/-- Identity on which every attribute read signals an error and GetID fails. -/
def ciErr : ClientIdentity := ⟨fun _ => .err, none⟩

/-! Helper lemmas about the store model. -/

lemma find?_filter_ne {α β : Type} [BEq α] [LawfulBEq α]
    (l : List (α × β)) (key k : α) (h : k ≠ key) :
    (l.filter (fun kv => kv.1 != key)).find? (fun kv => kv.1 == k) =
      l.find? (fun kv => kv.1 == k) := by
  induction l with
  | nil => rfl
  | cons a l ih =>
      by_cases hak : a.1 = k
      · have hne : (a.1 != key) = true := by
          simp only [bne_iff_ne, ne_eq]
          exact fun he => h (hak ▸ he)
        rw [List.filter_cons_of_pos (p := fun kv : α × β => kv.1 != key) hne,
            List.find?_cons_of_pos (p := fun kv : α × β => kv.1 == k) _ (by simpa using hak),
            List.find?_cons_of_pos (p := fun kv : α × β => kv.1 == k) _ (by simpa using hak)]
      · by_cases hkey : a.1 = key
        · rw [List.filter_cons_of_neg (p := fun kv : α × β => kv.1 != key) (by simpa using hkey),
              List.find?_cons_of_neg (p := fun kv : α × β => kv.1 == k) _ (by simpa using hak), ih]
        · rw [List.filter_cons_of_pos (p := fun kv : α × β => kv.1 != key) (by simpa using hkey),
              List.find?_cons_of_neg (p := fun kv : α × β => kv.1 == k) _ (by simpa using hak),
              List.find?_cons_of_neg (p := fun kv : α × β => kv.1 == k) _ (by simpa using hak), ih]

lemma getAssoc_put {α β : Type} [BEq α] [LawfulBEq α] [DecidableEq α]
    (l : List (α × β)) (key : α) (v : β) (k : α) :
    ((((key, v) :: l.filter (fun kv => kv.1 != key)).find?
        (fun kv => kv.1 == k)).map (fun kv => kv.2))
      = if k = key then some v
        else (l.find? (fun kv => kv.1 == k)).map (fun kv => kv.2) := by
  by_cases h : k = key
  · subst h
    rw [List.find?_cons_of_pos (p := fun kv : α × β => kv.1 == k) _ (by simp), if_pos rfl]
    rfl
  · rw [List.find?_cons_of_neg (p := fun kv : α × β => kv.1 == k) _
          (by simpa using fun he => h he.symm),
        if_neg h, find?_filter_ne _ _ _ h]

lemma getState_putState (w : World) (key : String) (v : Json) (k : String) :
    (w.putState key v).getState k = if k = key then some v else w.getState k := by
  unfold World.putState World.getState
  exact getAssoc_put _ _ _ _

lemma getPrivateData_putPrivateData (w : World) (coll key : String) (v : Json)
    (c k : String) :
    (w.putPrivateData coll key v).getPrivateData c k =
      if (c, k) = (coll, key) then some v else w.getPrivateData c k := by
  unfold World.putPrivateData World.getPrivateData
  exact getAssoc_put _ _ _ _

lemma getState_delState (w : World) (key k : String) :
    (w.delState key).getState k = if k = key then none else w.getState k := by
  unfold World.delState World.getState
  by_cases h : k = key
  · subst h
    rw [if_pos rfl]
    have hn : (w.state.filter (fun kv => kv.1 != k)).find? (fun kv => kv.1 == k)
        = none := by
      rw [List.find?_eq_none]
      intro x hx
      have hne := (List.mem_filter.mp hx).2
      simp only [bne_iff_ne, ne_eq] at hne
      simp [hne]
    rw [hn]
    rfl
  · rw [if_neg h, find?_filter_ne _ _ _ h]

/-- Round trip: unmarshalling a marshalled Fisher restores the record. -/
lemma unmarshalFisher_marshalFisher (f : Fisher) :
    unmarshalFisher (marshalFisher f) = .ok f := rfl

/-- Round trip: unmarshalling a marshalled Catch restores the record. -/
lemma unmarshalCatch_marshalCatch (c : Catch) :
    unmarshalCatch (marshalCatch c) = .ok c := rfl

/-- Membership in a range scan is membership in the state with the key inside
the half-open window. -/
lemma mem_rangeScan {kv : String × Json} {w : World} {a b : String} :
    kv ∈ w.rangeScan a b ↔ kv ∈ w.state ∧ strLe a kv.1 = true ∧ strLt kv.1 b = true := by
  unfold World.rangeScan
  rw [List.mem_insertionSort]
  simp [List.mem_filter, Bool.and_eq_true]

/-- A range scan enumerates its entries in (weak) key order. -/
lemma sorted_rangeScan (w : World) (a b : String) :
    (w.rangeScan a b).Sorted (fun x y => strLe x.1 y.1 = true) :=
  List.sorted_insertionSort _ _

/-- Declarative deserialization of a scanned entry list: deserialize every
entry in order and abort with the first failure. -/
def decodeEntries (f : String × Json → Except String Catch) :
    List (String × Json) → Except String (List Catch)
  | [] => .ok []
  | kv :: rest =>
      match f kv with
      | .error e => .error e
      | .ok c => (decodeEntries f rest).map (fun cs => c :: cs)

/-- The inclusive date window predicate of GenerateReport. -/
def dateInWindow (sd ed : String) (c : Catch) : Bool :=
  strLe sd c.date && strLe c.date ed

/-- The primary report loop equals: deserialize everything (aborting on the
first failure), then keep the records inside the window, appended after the
accumulator, preserving order. -/
lemma reportLoop_eq_decode (sd ed : String) (l : List (String × Json)) (acc : List Catch) :
    Getreech.reportLoop sd ed l acc =
      (decodeEntries Getreech.unmarshalCatchEntry l).map
        (fun cs => acc ++ cs.filter (dateInWindow sd ed)) := by
  induction l generalizing acc with
  | nil =>
      simp only [Getreech.reportLoop, decodeEntries, Except.map, List.filter_nil,
        List.append_nil]
  | cons kv rest ih =>
      cases h : Getreech.unmarshalCatchEntry kv with
      | error e => simp only [Getreech.reportLoop, decodeEntries, h, Except.map]
      | ok c =>
          simp only [Getreech.reportLoop, decodeEntries, h]
          rw [ih]
          cases hd : decodeEntries Getreech.unmarshalCatchEntry rest with
          | error e => simp only [Except.map]
          | ok cs =>
              simp only [Except.map, Except.ok.injEq]
              rw [List.filter_cons]
              by_cases hc : (strLe sd c.date && strLe c.date ed) = true
              · rw [if_pos hc, if_pos (show dateInWindow sd ed c = true from hc),
                  List.append_assoc]
                rfl
              · rw [if_neg hc, if_neg (show ¬dateInWindow sd ed c = true from hc)]

/-- The backup report loop satisfies the same characterization with its own
(unwrapped) decoder. -/
lemma reportLoopB_eq_decode (sd ed : String) (l : List (String × Json)) (acc : List Catch) :
    Bigdatacc.reportLoop sd ed l acc =
      (decodeEntries (fun kv => unmarshalCatch kv.2) l).map
        (fun cs => acc ++ cs.filter (dateInWindow sd ed)) := by
  induction l generalizing acc with
  | nil =>
      simp only [Bigdatacc.reportLoop, decodeEntries, Except.map, List.filter_nil,
        List.append_nil]
  | cons kv rest ih =>
      cases h : unmarshalCatch kv.2 with
      | error e => simp only [Bigdatacc.reportLoop, decodeEntries, h, Except.map]
      | ok c =>
          simp only [Bigdatacc.reportLoop, decodeEntries, h]
          rw [ih]
          cases hd : decodeEntries (fun kv => unmarshalCatch kv.2) rest with
          | error e => simp only [Except.map]
          | ok cs =>
              simp only [Except.map, Except.ok.injEq]
              rw [List.filter_cons]
              by_cases hc : (strLe sd c.date && strLe c.date ed) = true
              · rw [if_pos hc, if_pos (show dateInWindow sd ed c = true from hc),
                  List.append_assoc]
                rfl
              · rw [if_neg hc, if_neg (show ¬dateInWindow sd ed c = true from hc)]

/-- GenerateReport of the primary chaincode, for an authorized caller,
deserializes the scanned entries (aborting on the first failure) and
serializes the in-window records in scan order, leaving the world unchanged. -/
lemma generateReport_eq (ci : ClientIdentity) (sd ed : String) (w : World)
    (h : Getreech.hasRole ci "authority" = true) :
    Getreech.GenerateReport ci sd ed w =
      (match decodeEntries Getreech.unmarshalCatchEntry (w.rangeScan "CATCH_" "CATCH_~") with
       | .error e => (.error e, w)
       | .ok cs => (.ok (marshalCatches (cs.filter (dateInWindow sd ed))), w)) := by
  unfold Getreech.GenerateReport
  rw [h]
  show (match Getreech.reportLoop sd ed (w.rangeScan "CATCH_" "CATCH_~") [] with
        | .error e => (Except.error e, w)
        | .ok catches => (.ok (marshalCatches catches), w)) = _
  rw [reportLoop_eq_decode]
  cases hd : decodeEntries Getreech.unmarshalCatchEntry (w.rangeScan "CATCH_" "CATCH_~") with
  | error e => rfl
  | ok cs => rfl

/-- GenerateReport of the backup variant: same characterization. -/
lemma generateReportB_eq (ci : ClientIdentity) (sd ed : String) (w : World)
    (h : Bigdatacc.hasRole ci "authority" = true) :
    Bigdatacc.GenerateReport ci sd ed w =
      (match decodeEntries (fun kv => unmarshalCatch kv.2) (w.rangeScan "CATCH_" "CATCH_~") with
       | .error e => (.error e, w)
       | .ok cs => (.ok (marshalCatches (cs.filter (dateInWindow sd ed))), w)) := by
  unfold Bigdatacc.GenerateReport
  rw [h]
  show (match Bigdatacc.reportLoop sd ed (w.rangeScan "CATCH_" "CATCH_~") [] with
        | .error e => (Except.error e, w)
        | .ok catches => (.ok (marshalCatches catches), w)) = _
  rw [reportLoopB_eq_decode]
  cases hd : decodeEntries (fun kv => unmarshalCatch kv.2) (w.rangeScan "CATCH_" "CATCH_~") with
  | error e => rfl
  | ok cs => rfl

/-! Claim theorems. -/

/-- C1: the claim says LogCatch must reject a weightKg that does not parse to
a POSITIVE real.  Evaluating the code at weightKg = "-1.0": both variants
accept it, and the primary variant stores the catch with weight -1 (the
repository's own test expects the error "weight must be positive" here);
the "10.5" half of the claim does hold and the stored weight is 21/2 = 10.5. -/
theorem claim_C1_negative_weight_accepted :
    (Getreech.LogCatch ciFisher "C002" "F001" "Tilapia" "-1.0" "2025-08-09" emptyWorld).1
      = .ok ()
    ∧ (Getreech.LogCatch ciFisher "C002" "F001" "Tilapia" "-1.0" "2025-08-09"
        emptyWorld).2.getState "CATCH_C002"
      = some (marshalCatch ⟨"C002", "F001", "Tilapia", -1, "2025-08-09"⟩)
    ∧ (Bigdatacc.LogCatch ciFisher "C002" "F001" "Tilapia" "-1.0" "2025-08-09" emptyWorld).1
      = .ok ()
    ∧ (Getreech.LogCatch ciFisher "C001" "F001" "Tilapia" "10.5" "2025-08-09"
        emptyWorld).2.getState "CATCH_C001"
      = some (marshalCatch ⟨"C001", "F001", "Tilapia", 21 / 2, "2025-08-09"⟩) := by
  refine ⟨rfl, ?_, rfl, ?_⟩
  · rw [show (Getreech.LogCatch ciFisher "C002" "F001" "Tilapia" "-1.0" "2025-08-09"
        emptyWorld).2.getState "CATCH_C002"
      = some (marshalCatch ⟨"C002", "F001", "Tilapia", partsToRat (true, 1, 0, 1),
          "2025-08-09"⟩) from rfl]
    norm_num [marshalCatch, partsToRat]
  · rw [show (Getreech.LogCatch ciFisher "C001" "F001" "Tilapia" "10.5" "2025-08-09"
        emptyWorld).2.getState "CATCH_C001"
      = some (marshalCatch ⟨"C001", "F001", "Tilapia", partsToRat (false, 10, 5, 1),
          "2025-08-09"⟩) from rfl]
    norm_num [marshalCatch, partsToRat]

/-- C2: the claim says creating with a duplicate identifier is rejected and
the existing record is unchanged.  Evaluating the code: a second
RegisterFisher with the same id succeeds and silently replaces the first
record (the repository's own test expects the duplicate to fail), and the
same happens for PlaceOrder in the backup variant. -/
theorem claim_C2_duplicate_create_overwrites :
    (Getreech.RegisterFisher ciAuthority "F001" "Jane Doe" "GOV456"
        (Getreech.RegisterFisher ciAuthority "F001" "John Doe" "GOV123" emptyWorld).2).1
      = .ok ()
    ∧ (Getreech.RegisterFisher ciAuthority "F001" "Jane Doe" "GOV456"
        (Getreech.RegisterFisher ciAuthority "F001" "John Doe" "GOV123"
          emptyWorld).2).2.getPrivateData "FisherCollection" "FISHER_F001"
      = some (marshalFisher ⟨"F001", "Jane Doe", "GOV456", "fisher"⟩)
    ∧ (Bigdatacc.PlaceOrder ciBuyer "O001" "B002" "BUY002" "2025-08-10"
        (Bigdatacc.PlaceOrder ciBuyer "O001" "B001" "BUY001" "2025-08-09"
          emptyWorld).2).2.getState "ORDER_O001"
      = some (marshalOrder ⟨"O001", "B002", "BUY002", "placed", "2025-08-10"⟩) :=
  ⟨rfl, rfl, rfl⟩

/-- C3: the claim says LogCatch fails closed for a caller lacking the fisher
role who is not the named fisher.  Evaluating the code: in the primary
variant the check is commented out, so a caller with role "processor" and
enrollment id F002 logs a catch for F001 successfully; in the backup variant
matching the client id alone admits the write even without the fisher role.
The repository's own test expects both calls to fail. -/
theorem claim_C3_logcatch_auth_not_enforced :
    (Getreech.LogCatch ciProcessor "C004" "F001" "Tilapia" "5.0" "2025-08-09" emptyWorld).1
      = .ok ()
    ∧ ((Getreech.LogCatch ciProcessor "C004" "F001" "Tilapia" "5.0" "2025-08-09"
        emptyWorld).2.getState "CATCH_C004").isSome = true
    ∧ Getreech.hasRole ciProcessor "fisher" = false
    ∧ Getreech.isCaller ciProcessor "F001" = false
    ∧ (Bigdatacc.LogCatch ciProcessorOwner "C003" "F001" "Tilapia" "5.0" "2025-08-09"
        emptyWorld).1 = .ok ()
    ∧ Bigdatacc.hasRole ciProcessorOwner "fisher" = false :=
  ⟨rfl, rfl, rfl, rfl, rfl, rfl⟩

/-- C4 counterexample: the backup variant's hasRole returns true (allow) when
reading the role attribute signals an error, so the claim that hasRole denies
on error/absence does not hold of that code. -/
theorem claim_C4_counterexample : Bigdatacc.hasRole ciErr "authority" = true := rfl

/-- C4 (amended): the primary chaincode's hasRole is strict — it returns true
exactly when the role attribute is readable and equal to the required role,
hence false on read error or absence; the backup variant is permissive — it
returns false only when the attribute is readable and differs from the
required role. -/
theorem claim_C4_role_attribute_modes (ci : ClientIdentity) (role : String) :
    (Getreech.hasRole ci role = true ↔ ci.attr "role" = .found role)
    ∧ (Bigdatacc.hasRole ci role = false
        ↔ ∃ v, ci.attr "role" = .found v ∧ v ≠ role) := by
  constructor
  · unfold Getreech.hasRole
    cases h : ci.attr "role" with
    | err => simp
    | absent => simp
    | found v => simp
  · unfold Bigdatacc.hasRole
    cases h : ci.attr "role" with
    | err => simp
    | absent => simp
    | found v => simp

/-- C5: a caller failing the authority check gets the denial error and the
world is returned unchanged — no record written, no scan performed — for
RegisterFisher and GenerateReport in both variants. -/
theorem claim_C5_denied_caller_no_store_interaction
    (ci : ClientIdentity) (id name govtId sd ed : String) (w : World)
    (h1 : Getreech.hasRole ci "authority" = false)
    (h2 : Bigdatacc.hasRole ci "authority" = false) :
    Getreech.RegisterFisher ci id name govtId w
      = (.error "only authority can register fishers", w)
    ∧ Getreech.GenerateReport ci sd ed w
      = (.error "only authority can generate reports", w)
    ∧ Bigdatacc.RegisterFisher ci id name govtId w
      = (.error "only authority can register fishers", w)
    ∧ Bigdatacc.GenerateReport ci sd ed w
      = (.error "only authority can generate reports", w) := by
  refine ⟨?_, ?_, ?_, ?_⟩
  · unfold Getreech.RegisterFisher; rw [h1]; rfl
  · unfold Getreech.GenerateReport; rw [h1]; rfl
  · unfold Bigdatacc.RegisterFisher; rw [h2]; rfl
  · unfold Bigdatacc.GenerateReport; rw [h2]; rfl

/-- C5 witness: a caller holding role "fisher" is denied by all four
operations and the (empty) world is unchanged. -/
theorem claim_C5_witness :
    Getreech.RegisterFisher ciFisher "F009" "Jane" "GOV9" emptyWorld
      = (.error "only authority can register fishers", emptyWorld)
    ∧ Getreech.GenerateReport ciFisher "2025-01-01" "2025-12-31" emptyWorld
      = (.error "only authority can generate reports", emptyWorld)
    ∧ Bigdatacc.RegisterFisher ciFisher "F009" "Jane" "GOV9" emptyWorld
      = (.error "only authority can register fishers", emptyWorld)
    ∧ Bigdatacc.GenerateReport ciFisher "2025-01-01" "2025-12-31" emptyWorld
      = (.error "only authority can generate reports", emptyWorld) :=
  claim_C5_denied_caller_no_store_interaction ciFisher "F009" "Jane" "GOV9"
    "2025-01-01" "2025-12-31" emptyWorld rfl rfl

/-- C8: the three lookup operations are pure reads — they return the world
unchanged, and repeating the call on the resulting world returns the
identical result and world. -/
theorem claim_C8_reads_pure (id : String) (w : World) :
    (Bigdatacc.GetFisher id w).2 = w
    ∧ Bigdatacc.GetFisher id (Bigdatacc.GetFisher id w).2 = Bigdatacc.GetFisher id w
    ∧ (Bigdatacc.GetCatch id w).2 = w
    ∧ Bigdatacc.GetCatch id (Bigdatacc.GetCatch id w).2 = Bigdatacc.GetCatch id w
    ∧ (Getreech.TrackBatch id w).2 = w
    ∧ Getreech.TrackBatch id (Getreech.TrackBatch id w).2 = Getreech.TrackBatch id w
    ∧ (Getreech.GetFisher id w).2 = w
    ∧ Getreech.GetFisher id (Getreech.GetFisher id w).2 = Getreech.GetFisher id w := by
  have hgf : ∀ w2 : World, (Bigdatacc.GetFisher id w2).2 = w2 := by
    intro w2
    unfold Bigdatacc.GetFisher
    cases w2.getState ("FISHER_" ++ id) with
    | none => rfl
    | some j =>
        show (match unmarshalFisher j with
              | Except.error e => (Except.error e, w2)
              | Except.ok f => (Except.ok f, w2)).2 = w2
        cases unmarshalFisher j <;> rfl
  have hgc : ∀ w2 : World, (Bigdatacc.GetCatch id w2).2 = w2 := by
    intro w2
    unfold Bigdatacc.GetCatch
    cases w2.getState ("CATCH_" ++ id) with
    | none => rfl
    | some j =>
        show (match unmarshalCatch j with
              | Except.error e => (Except.error e, w2)
              | Except.ok c => (Except.ok c, w2)).2 = w2
        cases unmarshalCatch j <;> rfl
  have htb : ∀ w2 : World, (Getreech.TrackBatch id w2).2 = w2 := by
    intro w2
    unfold Getreech.TrackBatch
    cases w2.getState ("BATCH_" ++ id) with
    | none => rfl
    | some j => rfl
  have hpf : ∀ w2 : World, (Getreech.GetFisher id w2).2 = w2 := by
    intro w2
    unfold Getreech.GetFisher
    cases w2.getPrivateData "FisherCollection" ("FISHER_" ++ id) with
    | none => rfl
    | some j =>
        show (match unmarshalFisher j with
              | Except.error e => (Except.error ("failed to unmarshal fisher data: " ++ e), w2)
              | Except.ok f => (Except.ok f, w2)).2 = w2
        cases unmarshalFisher j <;> rfl
  exact ⟨hgf w, by rw [hgf w], hgc w, by rw [hgc w], htb w, by rw [htb w],
    hpf w, by rw [hpf w]⟩

/-- C7: RegisterFisher by an authorized caller succeeds, and GetFisher on the
resulting state returns exactly the registered fields with role forced to
"fisher", in both variants, leaving the state unchanged. -/
theorem claim_C7_register_then_get
    (ci : ClientIdentity) (id name govtId : String) (w : World)
    (h1 : Getreech.hasRole ci "authority" = true)
    (h2 : Bigdatacc.hasRole ci "authority" = true) :
    (Getreech.RegisterFisher ci id name govtId w).1 = .ok ()
    ∧ Getreech.GetFisher id (Getreech.RegisterFisher ci id name govtId w).2
        = (.ok ⟨id, name, govtId, "fisher"⟩, (Getreech.RegisterFisher ci id name govtId w).2)
    ∧ (Bigdatacc.RegisterFisher ci id name govtId w).1 = .ok ()
    ∧ Bigdatacc.GetFisher id (Bigdatacc.RegisterFisher ci id name govtId w).2
        = (.ok ⟨id, name, govtId, "fisher"⟩,
            (Bigdatacc.RegisterFisher ci id name govtId w).2) := by
  have hr : Getreech.RegisterFisher ci id name govtId w
      = (.ok (), w.putPrivateData "FisherCollection" ("FISHER_" ++ id)
          (marshalFisher ⟨id, name, govtId, "fisher"⟩)) := by
    unfold Getreech.RegisterFisher; rw [h1]; rfl
  have hrB : Bigdatacc.RegisterFisher ci id name govtId w
      = (.ok (), w.putState ("FISHER_" ++ id)
          (marshalFisher ⟨id, name, govtId, "fisher"⟩)) := by
    unfold Bigdatacc.RegisterFisher; rw [h2]; rfl
  refine ⟨by rw [hr], ?_, by rw [hrB], ?_⟩
  · rw [hr]
    unfold Getreech.GetFisher
    rw [getPrivateData_putPrivateData, if_pos rfl]
    show (match unmarshalFisher (marshalFisher ⟨id, name, govtId, "fisher"⟩) with
          | Except.error e =>
              (Except.error ("failed to unmarshal fisher data: " ++ e),
                w.putPrivateData "FisherCollection" ("FISHER_" ++ id)
                  (marshalFisher ⟨id, name, govtId, "fisher"⟩))
          | Except.ok f =>
              (Except.ok f,
                w.putPrivateData "FisherCollection" ("FISHER_" ++ id)
                  (marshalFisher ⟨id, name, govtId, "fisher"⟩))) = _
    rw [unmarshalFisher_marshalFisher]
  · rw [hrB]
    unfold Bigdatacc.GetFisher
    rw [getState_putState, if_pos rfl]
    show (match unmarshalFisher (marshalFisher ⟨id, name, govtId, "fisher"⟩) with
          | Except.error e =>
              (Except.error e,
                w.putState ("FISHER_" ++ id) (marshalFisher ⟨id, name, govtId, "fisher"⟩))
          | Except.ok f =>
              (Except.ok f,
                w.putState ("FISHER_" ++ id)
                  (marshalFisher ⟨id, name, govtId, "fisher"⟩))) = _
    rw [unmarshalFisher_marshalFisher]

/-- C7 witness: registering F001 as John Doe / GOV123 under an authority
caller and reading it back. -/
theorem claim_C7_witness :
    (Getreech.RegisterFisher ciAuthority "F001" "John Doe" "GOV123" emptyWorld).1 = .ok ()
    ∧ Getreech.GetFisher "F001"
        (Getreech.RegisterFisher ciAuthority "F001" "John Doe" "GOV123" emptyWorld).2
      = (.ok ⟨"F001", "John Doe", "GOV123", "fisher"⟩,
          (Getreech.RegisterFisher ciAuthority "F001" "John Doe" "GOV123" emptyWorld).2)
    ∧ (Bigdatacc.RegisterFisher ciAuthority "F001" "John Doe" "GOV123" emptyWorld).1 = .ok ()
    ∧ Bigdatacc.GetFisher "F001"
        (Bigdatacc.RegisterFisher ciAuthority "F001" "John Doe" "GOV123" emptyWorld).2
      = (.ok ⟨"F001", "John Doe", "GOV123", "fisher"⟩,
          (Bigdatacc.RegisterFisher ciAuthority "F001" "John Doe" "GOV123" emptyWorld).2) :=
  claim_C7_register_then_get ciAuthority "F001" "John Doe" "GOV123" emptyWorld rfl rfl

/-- C9: every operation of either variant that reads or writes an entity
record addresses the store exactly at the fixed literal prefix for its entity
type concatenated with the identifier: each create or update writes its
record at PREFIX ++ id and changes no other key, DeleteAsset removes exactly
that key, and each lookup depends only on the value at PREFIX ++ id.  The
parse hypotheses assume in-range numerals (see the parser comments). -/
theorem claim_C9_key_scheme
    (ciA ciF ciP ciB ci2 : ClientIdentity)
    (id name govtId catchId fisherId species wstr date batchId processorId
      orderId buyerId aid color sizeStr owner avStr fid cid bid assetId
      tid newOwner coll k : String)
    (catchIds : List String) (w w2 : World) (q : ℚ) (sz av : Int)
    (ja : Json) (a0 : Asset)
    (hA : Bigdatacc.hasRole ciA "authority" = true)
    (hF : Bigdatacc.hasRole ciF "fisher" = true)
    (hP : Bigdatacc.hasRole ciP "processor" = true)
    (hB : Bigdatacc.hasRole ciB "buyer" = true)
    (gA : Getreech.hasRole ciA "authority" = true)
    (gP : Getreech.hasRole ciP "processor" = true)
    (gB : Getreech.hasRole ciB "buyer" = true)
    (hq : parseFloat wstr = some q)
    (hsz : parseAtoi sizeStr = some sz)
    (hav : parseAtoi avStr = some av)
    (e1 : w.getState ("FISHER_" ++ fid) = w2.getState ("FISHER_" ++ fid))
    (e2 : w.getState ("CATCH_" ++ cid) = w2.getState ("CATCH_" ++ cid))
    (e3 : w.getState ("BATCH_" ++ bid) = w2.getState ("BATCH_" ++ bid))
    (e4 : w.getState ("ASSET_" ++ assetId) = w2.getState ("ASSET_" ++ assetId))
    (e5 : w.getPrivateData "FisherCollection" ("FISHER_" ++ fid)
        = w2.getPrivateData "FisherCollection" ("FISHER_" ++ fid))
    (hTa : w.getState ("ASSET_" ++ tid) = some ja)
    (hja : unmarshalAsset ja = .ok a0) :
    (Bigdatacc.RegisterFisher ciA id name govtId w).2.getState k
      = (if k = "FISHER_" ++ id then some (marshalFisher ⟨id, name, govtId, "fisher"⟩)
         else w.getState k)
    ∧ (Bigdatacc.LogCatch ciF catchId fisherId species wstr date w).2.getState k
      = (if k = "CATCH_" ++ catchId
         then some (marshalCatch ⟨catchId, fisherId, species, q, date⟩)
         else w.getState k)
    ∧ (Bigdatacc.CreateBatch ciP batchId catchIds processorId date w).2.getState k
      = (if k = "BATCH_" ++ batchId
         then some (marshalBatch ⟨batchId, catchIds, processorId, date,
            "https://example.org/batch/" ++ batchId⟩)
         else w.getState k)
    ∧ (Bigdatacc.PlaceOrder ciB orderId batchId buyerId date w).2.getState k
      = (if k = "ORDER_" ++ orderId
         then some (marshalOrder ⟨orderId, batchId, buyerId, "placed", date⟩)
         else w.getState k)
    ∧ (Bigdatacc.CreateAsset ci2 aid color sizeStr owner avStr w).2.getState k
      = (if k = "ASSET_" ++ aid then some (marshalAsset ⟨aid, color, sz, owner, av⟩)
         else w.getState k)
    ∧ (Bigdatacc.GetFisher fid w).1 = (Bigdatacc.GetFisher fid w2).1
    ∧ (Bigdatacc.GetCatch cid w).1 = (Bigdatacc.GetCatch cid w2).1
    ∧ (Bigdatacc.TrackBatch bid w).1 = (Bigdatacc.TrackBatch bid w2).1
    ∧ (Bigdatacc.ReadAsset assetId w).1 = (Bigdatacc.ReadAsset assetId w2).1
    ∧ (Bigdatacc.TransferAsset ci2 tid newOwner w).2.getState k
      = (if k = "ASSET_" ++ tid
         then some (marshalAsset { a0 with owner := newOwner })
         else w.getState k)
    ∧ (Bigdatacc.UpdateAsset ci2 tid color sizeStr avStr w).2.getState k
      = (if k = "ASSET_" ++ tid
         then some (marshalAsset ⟨a0.id, color, sz, a0.owner, av⟩)
         else w.getState k)
    ∧ (Bigdatacc.DeleteAsset ci2 tid w).2.getState k
      = (if k = "ASSET_" ++ tid then none else w.getState k)
    ∧ (Getreech.RegisterFisher ciA id name govtId w).2.getPrivateData coll k
      = (if (coll, k) = ("FisherCollection", "FISHER_" ++ id)
         then some (marshalFisher ⟨id, name, govtId, "fisher"⟩)
         else w.getPrivateData coll k)
    ∧ (Getreech.LogCatch ciF catchId fisherId species wstr date w).2.getState k
      = (if k = "CATCH_" ++ catchId
         then some (marshalCatch ⟨catchId, fisherId, species, q, date⟩)
         else w.getState k)
    ∧ (Getreech.CreateBatch ciP batchId catchIds processorId date w).2.getState k
      = (if k = "BATCH_" ++ batchId
         then some (marshalBatch ⟨batchId, catchIds, processorId, date,
            "https://getreech.example.org/batch/" ++ batchId⟩)
         else w.getState k)
    ∧ (Getreech.PlaceOrder ciB orderId batchId buyerId date w).2.getState k
      = (if k = "ORDER_" ++ orderId
         then some (marshalOrder ⟨orderId, batchId, buyerId, "placed", date⟩)
         else w.getState k)
    ∧ (Getreech.GetFisher fid w).1 = (Getreech.GetFisher fid w2).1
    ∧ (Getreech.TrackBatch bid w).1 = (Getreech.TrackBatch bid w2).1 := by
  refine ⟨?_, ?_, ?_, ?_, ?_, ?_, ?_, ?_, ?_, ?_, ?_, ?_, ?_, ?_, ?_, ?_, ?_, ?_⟩
  · unfold Bigdatacc.RegisterFisher
    rw [hA]
    exact getState_putState w ("FISHER_" ++ id)
      (marshalFisher ⟨id, name, govtId, "fisher"⟩) k
  · unfold Bigdatacc.LogCatch
    rw [hF, hq]
    exact getState_putState w ("CATCH_" ++ catchId)
      (marshalCatch ⟨catchId, fisherId, species, q, date⟩) k
  · unfold Bigdatacc.CreateBatch
    rw [hP]
    exact getState_putState w ("BATCH_" ++ batchId)
      (marshalBatch ⟨batchId, catchIds, processorId, date,
        "https://example.org/batch/" ++ batchId⟩) k
  · unfold Bigdatacc.PlaceOrder
    rw [hB]
    exact getState_putState w ("ORDER_" ++ orderId)
      (marshalOrder ⟨orderId, batchId, buyerId, "placed", date⟩) k
  · unfold Bigdatacc.CreateAsset
    rw [hsz, hav]
    exact getState_putState w ("ASSET_" ++ aid)
      (marshalAsset ⟨aid, color, sz, owner, av⟩) k
  · unfold Bigdatacc.GetFisher
    rw [e1]
    cases w2.getState ("FISHER_" ++ fid) with
    | none => rfl
    | some j =>
        show (match unmarshalFisher j with
              | Except.error e => (Except.error e, w)
              | Except.ok f => (Except.ok f, w)).1
          = (match unmarshalFisher j with
              | Except.error e => (Except.error e, w2)
              | Except.ok f => (Except.ok f, w2)).1
        cases unmarshalFisher j <;> rfl
  · unfold Bigdatacc.GetCatch
    rw [e2]
    cases w2.getState ("CATCH_" ++ cid) with
    | none => rfl
    | some j =>
        show (match unmarshalCatch j with
              | Except.error e => (Except.error e, w)
              | Except.ok c => (Except.ok c, w)).1
          = (match unmarshalCatch j with
              | Except.error e => (Except.error e, w2)
              | Except.ok c => (Except.ok c, w2)).1
        cases unmarshalCatch j <;> rfl
  · unfold Bigdatacc.TrackBatch
    rw [e3]
    cases w2.getState ("BATCH_" ++ bid) with
    | none => rfl
    | some j => rfl
  · unfold Bigdatacc.ReadAsset
    rw [e4]
    cases w2.getState ("ASSET_" ++ assetId) with
    | none => rfl
    | some j =>
        show (match unmarshalAsset j with
              | Except.error e => (Except.error e, w)
              | Except.ok a => (Except.ok a, w)).1
          = (match unmarshalAsset j with
              | Except.error e => (Except.error e, w2)
              | Except.ok a => (Except.ok a, w2)).1
        cases unmarshalAsset j <;> rfl
  · simp only [Bigdatacc.TransferAsset, hTa, hja]
    exact getState_putState w ("ASSET_" ++ tid)
      (marshalAsset { a0 with owner := newOwner }) k
  · simp only [Bigdatacc.UpdateAsset, hTa, hja, hsz, hav]
    exact getState_putState w ("ASSET_" ++ tid)
      (marshalAsset ⟨a0.id, color, sz, a0.owner, av⟩) k
  · simp only [Bigdatacc.DeleteAsset, hTa]
    exact getState_delState w ("ASSET_" ++ tid) k
  · unfold Getreech.RegisterFisher
    rw [gA]
    exact getPrivateData_putPrivateData w "FisherCollection" ("FISHER_" ++ id)
      (marshalFisher ⟨id, name, govtId, "fisher"⟩) coll k
  · unfold Getreech.LogCatch
    rw [hq]
    exact getState_putState w ("CATCH_" ++ catchId)
      (marshalCatch ⟨catchId, fisherId, species, q, date⟩) k
  · unfold Getreech.CreateBatch
    rw [gP]
    exact getState_putState w ("BATCH_" ++ batchId)
      (marshalBatch ⟨batchId, catchIds, processorId, date,
        "https://getreech.example.org/batch/" ++ batchId⟩) k
  · unfold Getreech.PlaceOrder
    rw [gB]
    exact getState_putState w ("ORDER_" ++ orderId)
      (marshalOrder ⟨orderId, batchId, buyerId, "placed", date⟩) k
  · unfold Getreech.GetFisher
    rw [e5]
    cases w2.getPrivateData "FisherCollection" ("FISHER_" ++ fid) with
    | none => rfl
    | some j =>
        show (match unmarshalFisher j with
              | Except.error e =>
                  (Except.error ("failed to unmarshal fisher data: " ++ e), w)
              | Except.ok f => (Except.ok f, w)).1
          = (match unmarshalFisher j with
              | Except.error e =>
                  (Except.error ("failed to unmarshal fisher data: " ++ e), w2)
              | Except.ok f => (Except.ok f, w2)).1
        cases unmarshalFisher j <;> rfl
  · unfold Getreech.TrackBatch
    rw [e3]
    cases w2.getState ("BATCH_" ++ bid) with
    | none => rfl
    | some j => rfl

/-- Sample asset record used to instantiate the key-scheme theorem. -/
def assetSample : Asset := ⟨"A001", "red", 7, "own", 1000⟩

/-- Sample world holding one asset record. -/
def wAsset : World := ⟨[("ASSET_A001", marshalAsset assetSample)], []⟩

/-- C9 witness: the backup write lands at FISHER_F001, the primary write
lands at (FisherCollection, FISHER_F001) in the private partition, and
DeleteAsset removes exactly ASSET_A001; all hypotheses are discharged on
concrete identities and a world holding one asset. -/
theorem claim_C9_witness :
    ((Bigdatacc.RegisterFisher ciAuthority "F001" "John" "GOV1" wAsset).2.getState
        "FISHER_F001"
      = (if ("FISHER_F001" : String) = "FISHER_" ++ "F001"
         then some (marshalFisher ⟨"F001", "John", "GOV1", "fisher"⟩)
         else wAsset.getState "FISHER_F001"))
    ∧ ((Getreech.RegisterFisher ciAuthority "F001" "John" "GOV1" wAsset).2.getPrivateData
          "FisherCollection" "FISHER_F001"
      = (if (("FisherCollection", "FISHER_F001") : String × String)
            = ("FisherCollection", "FISHER_" ++ "F001")
         then some (marshalFisher ⟨"F001", "John", "GOV1", "fisher"⟩)
         else wAsset.getPrivateData "FisherCollection" "FISHER_F001"))
    ∧ ((Bigdatacc.DeleteAsset ciErr "A001" wAsset).2.getState "ASSET_A001"
      = (if ("ASSET_A001" : String) = "ASSET_" ++ "A001" then none
         else wAsset.getState "ASSET_A001")) := by
  refine ⟨?_, ?_, ?_⟩
  · obtain ⟨h, _⟩ := claim_C9_key_scheme ciAuthority ciFisher ciProcessor ciBuyer ciErr
      "F001" "John" "GOV1" "C001" "F001" "Tilapia" "10.5" "2025-08-09" "B001" "P001"
      "O001" "BUY1" "A002" "red" "7" "own" "1000" "F9" "C9" "B9" "A9" "A001" "newOwn"
      "FisherCollection" "FISHER_F001" ["C001"] wAsset wAsset
      (partsToRat (false, 10, 5, 1)) 7 1000 (marshalAsset assetSample) assetSample
      rfl rfl rfl rfl rfl rfl rfl rfl rfl rfl rfl rfl rfl rfl rfl rfl rfl
    exact h
  · obtain ⟨_, _, _, _, _, _, _, _, _, _, _, _, h, _⟩ :=
      claim_C9_key_scheme ciAuthority ciFisher ciProcessor ciBuyer ciErr
      "F001" "John" "GOV1" "C001" "F001" "Tilapia" "10.5" "2025-08-09" "B001" "P001"
      "O001" "BUY1" "A002" "red" "7" "own" "1000" "F9" "C9" "B9" "A9" "A001" "newOwn"
      "FisherCollection" "FISHER_F001" ["C001"] wAsset wAsset
      (partsToRat (false, 10, 5, 1)) 7 1000 (marshalAsset assetSample) assetSample
      rfl rfl rfl rfl rfl rfl rfl rfl rfl rfl rfl rfl rfl rfl rfl rfl rfl
    exact h
  · obtain ⟨_, _, _, _, _, _, _, _, _, _, _, h, _⟩ :=
      claim_C9_key_scheme ciAuthority ciFisher ciProcessor ciBuyer ciErr
      "F001" "John" "GOV1" "C001" "F001" "Tilapia" "10.5" "2025-08-09" "B001" "P001"
      "O001" "BUY1" "A002" "red" "7" "own" "1000" "F9" "C9" "B9" "A9" "A001" "newOwn"
      "FisherCollection" "ASSET_A001" ["C001"] wAsset wAsset
      (partsToRat (false, 10, 5, 1)) 7 1000 (marshalAsset assetSample) assetSample
      rfl rfl rfl rfl rfl rfl rfl rfl rfl rfl rfl rfl rfl rfl rfl rfl rfl
    exact h

/-- C6: for an authorized caller, GenerateReport deserializes exactly the
entries of the forward half-open range scan over [CATCH_, CATCH_~), aborting
on the first deserialization failure with the world unchanged, and serializes
the records whose date lies in the inclusive lexicographic window, in scan
order; every scanned entry is a state entry with its key inside the window,
and the scan is sorted by key.  Both variants satisfy the characterization. -/
theorem claim_C6_report_scan_filter
    (ci : ClientIdentity) (sd ed : String) (w : World) (kv : String × Json)
    (hauth : Getreech.hasRole ci "authority" = true)
    (hauthB : Bigdatacc.hasRole ci "authority" = true)
    (hkv : kv ∈ w.rangeScan "CATCH_" "CATCH_~") :
    Getreech.GenerateReport ci sd ed w =
      (match decodeEntries Getreech.unmarshalCatchEntry
          (w.rangeScan "CATCH_" "CATCH_~") with
       | .error e => (.error e, w)
       | .ok cs => (.ok (marshalCatches (cs.filter (dateInWindow sd ed))), w))
    ∧ (strLe "CATCH_" kv.1 = true ∧ strLt kv.1 "CATCH_~" = true ∧ kv ∈ w.state)
    ∧ (w.rangeScan "CATCH_" "CATCH_~").Sorted (fun x y => strLe x.1 y.1 = true)
    ∧ Bigdatacc.GenerateReport ci sd ed w =
      (match decodeEntries (fun e => unmarshalCatch e.2)
          (w.rangeScan "CATCH_" "CATCH_~") with
       | .error e => (.error e, w)
       | .ok cs => (.ok (marshalCatches (cs.filter (dateInWindow sd ed))), w)) := by
  have hm := mem_rangeScan.mp hkv
  exact ⟨generateReport_eq ci sd ed w hauth, ⟨hm.2.1, hm.2.2, hm.1⟩,
    sorted_rangeScan w _ _, generateReportB_eq ci sd ed w hauthB⟩

/-- Sample catch record used to instantiate the report theorems. -/
def catchSample : Catch := ⟨"C001", "F001", "Tilapia", 7, "2025-08-09"⟩

/-- Sample world holding one catch record. -/
def wSample : World := ⟨[("CATCH_C001", marshalCatch catchSample)], []⟩

/-- C6 witness: the characterization instantiated on a world holding one
catch record, under an authority caller. -/
theorem claim_C6_witness :
    Getreech.GenerateReport ciAuthority "2025-08-09" "2025-08-10" wSample =
      (match decodeEntries Getreech.unmarshalCatchEntry
          (wSample.rangeScan "CATCH_" "CATCH_~") with
       | .error e => (.error e, wSample)
       | .ok cs => (.ok (marshalCatches
            (cs.filter (dateInWindow "2025-08-09" "2025-08-10"))), wSample))
    ∧ (strLe "CATCH_" ("CATCH_C001", marshalCatch catchSample).1 = true
       ∧ strLt ("CATCH_C001", marshalCatch catchSample).1 "CATCH_~" = true
       ∧ ("CATCH_C001", marshalCatch catchSample) ∈ wSample.state)
    ∧ (wSample.rangeScan "CATCH_" "CATCH_~").Sorted (fun x y => strLe x.1 y.1 = true)
    ∧ Bigdatacc.GenerateReport ciAuthority "2025-08-09" "2025-08-10" wSample =
      (match decodeEntries (fun e => unmarshalCatch e.2)
          (wSample.rangeScan "CATCH_" "CATCH_~") with
       | .error e => (.error e, wSample)
       | .ok cs => (.ok (marshalCatches
            (cs.filter (dateInWindow "2025-08-09" "2025-08-10"))), wSample)) :=
  claim_C6_report_scan_filter ciAuthority "2025-08-09" "2025-08-10" wSample
    ("CATCH_C001", marshalCatch catchSample) rfl rfl
    (show _ ∈ [("CATCH_C001", marshalCatch catchSample)] from List.mem_singleton.mpr rfl)

/-- C10: when the caller is authorized, every scanned entry deserializes, and
no deserialized record has its date inside the window — in particular
whenever the start date is lexicographically greater than the end date — the
report succeeds and returns the four-character string "null", the JSON
encoding of the nil Go slice, not the empty array. -/
theorem claim_C10_empty_report_null
    (ci : ClientIdentity) (sd ed : String) (w : World) (cs : List Catch)
    (hauth : Getreech.hasRole ci "authority" = true)
    (hok : decodeEntries Getreech.unmarshalCatchEntry (w.rangeScan "CATCH_" "CATCH_~")
      = .ok cs)
    (hnone : strLt ed sd = true ∨ ∀ c ∈ cs, dateInWindow sd ed c = false) :
    Getreech.GenerateReport ci sd ed w = (.ok "null", w) := by
  rw [generateReport_eq ci sd ed w hauth, hok]
  have hfil : cs.filter (dateInWindow sd ed) = [] := by
    rw [List.filter_eq_nil_iff]
    intro c hc
    rcases hnone with hlt | hall
    · intro hdw
      have hsplit : strLe sd c.date = true ∧ strLe c.date ed = true := by
        simpa [dateInWindow] using hdw
      have h3 : strLe sd ed = true := strLe_trans hsplit.1 hsplit.2
      simp [strLt, h3] at hlt
    · simp [hall c hc]
  show (Except.ok (marshalCatches (cs.filter (dateInWindow sd ed))), w)
    = (Except.ok "null", w)
  rw [hfil]
  rfl

/-- C10 witness: an authority caller over the empty store with an inverted
window receives the string "null". -/
theorem claim_C10_witness :
    Getreech.GenerateReport ciAuthority "2025-01-02" "2025-01-01" emptyWorld
      = (.ok "null", emptyWorld) :=
  claim_C10_empty_report_null ciAuthority "2025-01-02" "2025-01-01" emptyWorld []
    rfl rfl (.inl rfl)

end FMS
